import Mathlib

/-!
Verification of the Voice-Challan backend (src/app.py, the active code after
line 168) against its specification. The three HTTP handlers are embedded as
pure Lean functions:

* `generate_pdf` models the POST /api/generate-pdf handler: validation of the
  JSON payload, rendering of the PDF (modelled as the sequence of fpdf cell
  calls the code issues, each cell recording width, height, text, border, the
  line-break flag and alignment), and the INSERT into the challans table
  (modelled as appending a row to an explicit list of rows).
* `list_challans` models GET /api/list-challans: the WHERE clause built by the
  code (is_deleted = false, optional ILIKE search, optional date bounds), an
  ORDER BY modelled as an insertion sort under an arbitrary boolean relation
  (the code interpolates the sort column and direction into the query), and
  the projection to the selected columns.
* `download_pdf` models GET /api/download-pdf/<id>: a lookup of the first row
  with the given id (the query has no is_deleted condition) returning either a
  404 error or the stored bytes with the Content-Type and Content-Disposition
  headers the code sets.

Numbers: JSON quantities are modelled as integers and prices as exact
rationals. The Python code computes prices in binary64 floating point and
formats with the percent .2f conversion; on values whose computation is exact
in binary64 (all values the claims name except the 0.005 scenario) the
rational model agrees with it. The set_font calls are omitted: no claim
mentions fonts, and they draw nothing.
-/

namespace VoiceChallan

/-- One fpdf cell call: pdf.cell(w, h, txt, border, ln, align). -/
structure Cell where
  w : Nat
  h : Nat
  txt : String
  border : Nat
  ln : Nat
  align : String
deriving Repr, DecidableEq

/-- The decimal digit character for n in [0, 10). -/
def digitChar (n : Nat) : Char := Char.ofNat (48 + n)

/-- Two decimal digits for n in [0, 100), with a leading zero. -/
def twoDigits (n : Nat) : String := String.mk [digitChar (n / 10), digitChar (n % 10)]

/-- The Python format conversion percent .2f on a nonnegative exact decimal:
round to a whole number of hundredths, then print integer part, a dot, and
exactly two digits. -/
def formatTwoDec (x : ℚ) : String :=
  let cents : ℤ := round (x * 100)
  toString (cents / 100) ++ "." ++ twoDigits ((cents % 100).toNat)

/-- A JSON item as the validation loop sees it: either not a dict, or a dict
with optionally present description, quantity and price fields. -/
inductive JsonItem where
  | nonDict : JsonItem
  | dict : Option String → Option Int → Option ℚ → JsonItem
deriving Repr, DecidableEq

/-- The per-item check at src/app.py:254: the item is a dict and has both a
quantity and a description field. -/
def itemValid : JsonItem → Bool
  | .nonDict => false
  | .dict d q _ => d.isSome && q.isSome

/-- Index of the first item failing `itemValid`, as the enumerate loop finds
it; none when every item is valid. -/
def firstInvalidIdx : List JsonItem → Nat → Option Nat
  | [], _ => none
  | it :: rest, idx => if itemValid it then firstInvalidIdx rest (idx + 1) else some idx

/-- An item after validation: description and quantity are present, price
defaults to 0 (item.get with default 0 at src/app.py:283). -/
structure ValidItem where
  description : String
  quantity : Int
  price : ℚ
deriving Repr, DecidableEq

/-- Field extraction for a validated item. The defaults for the description
and quantity arms are never reached on items that passed `itemValid`. -/
def toValidItem : JsonItem → ValidItem
  | .nonDict => ⟨"", 0, 0⟩
  | .dict d q p => ⟨d.getD "", q.getD 0, p.getD 0⟩

/-- The four cells drawn for one item row (src/app.py:286-289). -/
def itemRow (it : ValidItem) : List Cell :=
  [⟨30, 10, toString it.quantity, 1, 0, "C"⟩,
   ⟨80, 10, it.description, 1, 0, "L"⟩,
   ⟨30, 10, "Rs " ++ formatTwoDec it.price, 1, 0, "R"⟩,
   ⟨30, 10, "Rs " ++ formatTwoDec ((it.quantity : ℚ) * it.price), 1, 1, "R"⟩]

/-- The accumulation of total_items and total_price over the item loop
(src/app.py:291-292). -/
def totalsLoop : List ValidItem → Int × ℚ → Int × ℚ
  | [], acc => acc
  | it :: rest, (ti, tp) => totalsLoop rest (ti + it.quantity, tp + (it.quantity : ℚ) * it.price)

/-- total_items after the loop, starting from 0. -/
def totalItems (v : List ValidItem) : Int := (totalsLoop v (0, 0)).1

/-- total_price after the loop, starting from 0. -/
def totalPrice (v : List ValidItem) : ℚ := (totalsLoop v (0, 0)).2

/-- The full sequence of cells drawn by generate_pdf (src/app.py:266-296):
title, date, customer and challan lines; the table header; one `itemRow` per
item in input order; and the totals row. -/
def renderPdf (customerName challanNo today : String) (vitems : List ValidItem) : List Cell :=
  [⟨200, 10, "Shakti Trading Co.", 0, 1, "C"⟩,
   ⟨200, 10, "Date: " ++ today, 0, 1, "R"⟩,
   ⟨200, 10, "Customer: " ++ customerName, 0, 1, "L"⟩,
   ⟨200, 10, "Challan No: " ++ challanNo, 0, 1, "L"⟩,
   ⟨30, 10, "Quantity", 1, 0, "C"⟩,
   ⟨80, 10, "Description", 1, 0, "C"⟩,
   ⟨30, 10, "Price", 1, 0, "C"⟩,
   ⟨30, 10, "Total", 1, 1, "C"⟩]
  ++ vitems.flatMap itemRow
  ++ [⟨140, 10, "Total", 1, 0, "R"⟩,
      ⟨30, 10, "Rs " ++ formatTwoDec (totalPrice vitems), 1, 1, "R"⟩]

/-- The items field of the request body: present as a JSON array, or present
with some other JSON type (the isinstance list check at src/app.py:251). -/
inductive JsonItems where
  | notList : JsonItems
  | list : List JsonItem → JsonItems
deriving Repr, DecidableEq

/-- The request payload: each required top-level field is present or not. -/
structure RequestData where
  items : Option JsonItems
  customerName : Option String
  challanNo : Option String
deriving Repr, DecidableEq

/-- The 400-level validation errors generate_pdf can return. -/
inductive ApiError where
  | missingFields : List String → ApiError
  | itemsNotNonEmptyList : ApiError
  | invalidItem : Nat → ApiError
deriving Repr, DecidableEq

/-- The success body: challanId and challanNo (src/app.py:314-318). -/
structure GenSuccess where
  challanId : Nat
  challanNo : String
deriving Repr, DecidableEq

/-- The missing required top-level fields, in the order the code checks them
(src/app.py:244-245). -/
def missingFields (d : RequestData) : List String :=
  (if d.items.isNone then ["items"] else [])
    ++ (if d.customerName.isNone then ["customerName"] else [])
    ++ (if d.challanNo.isNone then ["challanNo"] else [])

/-- One row of the challans table (schema at src/app.py:211-223). pdf_data is
the rendered cell sequence standing in for the encoded bytes. -/
structure DbRow where
  id : Nat
  customer_name : String
  challan_no : String
  pdf_data : List Cell
  created_at : String
  items : List JsonItem
  total_items : Int
  total_price : ℚ
  is_deleted : Bool
deriving Repr, DecidableEq

/-- The generate-pdf handler: validation in source order, then rendering, then
the INSERT. Returns the response together with the table contents after the
call; every error path leaves the table as it was. nextId models the SERIAL
primary key, today the strftime of datetime.now. -/
def generate_pdf (d : RequestData) (today : String) (db : List DbRow) (nextId : Nat) :
    Except ApiError GenSuccess × List DbRow :=
  if missingFields d ≠ [] then (.error (.missingFields (missingFields d)), db)
  else
    match d.items, d.customerName, d.challanNo with
    | some ji, some customerName, some challanNo =>
      match ji with
      | .notList => (.error .itemsNotNonEmptyList, db)
      | .list xs =>
        if xs.isEmpty then (.error .itemsNotNonEmptyList, db)
        else
          match firstInvalidIdx xs 0 with
          | some idx => (.error (.invalidItem idx), db)
          | none =>
            let vitems := xs.map toValidItem
            let pdf := renderPdf customerName challanNo today vitems
            (.ok ⟨nextId, challanNo⟩,
             db ++ [⟨nextId, customerName, challanNo, pdf, today, xs,
                     totalItems vitems, totalPrice vitems, false⟩])
    | _, _, _ => (.error (.missingFields (missingFields d)), db)

/-- True on the error constructor of the handler result. -/
def isErr : Except ApiError GenSuccess → Bool
  | .error _ => true
  | .ok _ => false

/-- List-of-characters matching used to model the SQL ILIKE operator. -/
def isPrefixList : List Char → List Char → Bool
  | [], _ => true
  | _ :: _, [] => false
  | a :: ps, b :: l => a == b && isPrefixList ps l

/-- Whether the first list occurs contiguously inside the second. -/
def isInfixList (p : List Char) : List Char → Bool
  | [] => isPrefixList p []
  | b :: rest => isPrefixList p (b :: rest) || isInfixList p rest

/-- field ILIKE percent-term-percent: case-insensitive substring match. -/
def ilikeContains (field term : String) : Bool :=
  isInfixList (term.data.map Char.toLower) (field.data.map Char.toLower)

/-- Python truthiness of an optional query argument: absent and empty strings
are falsy, so the code adds no clause for them. -/
def truthyO : Option String → Bool
  | none => false
  | some s => !s.isEmpty

/-- The WHERE clause built at src/app.py:335-353: is_deleted = false, the
ILIKE search over customer_name and challan_no when the search term is
truthy, and the created_at bounds when present. -/
def rowMatches (search : String) (sd ed : Option String) (r : DbRow) : Bool :=
  r.is_deleted == false
    && (!(!search.isEmpty) || (ilikeContains r.customer_name search || ilikeContains r.challan_no search))
    && (!truthyO sd || decide (sd.getD "" ≤ r.created_at))
    && (!truthyO ed || decide (r.created_at ≤ ed.getD ""))

/-- Insertion of one element into a list sorted by the boolean relation le. -/
def insertSorted (le : DbRow → DbRow → Bool) (a : DbRow) : List DbRow → List DbRow
  | [] => [a]
  | b :: l => if le a b then a :: b :: l else b :: insertSorted le a l

/-- Insertion sort standing in for ORDER BY under an arbitrary relation: the
code interpolates the sort column and direction directly into the query. -/
def sortRows (le : DbRow → DbRow → Bool) (l : List DbRow) : List DbRow :=
  l.foldr (insertSorted le) []

/-- The column list of the SELECT at src/app.py:336-337: neither pdf_data nor
is_deleted is returned. -/
structure ListedRow where
  id : Nat
  customer_name : String
  challan_no : String
  created_at : String
  total_items : Int
  total_price : ℚ
deriving Repr, DecidableEq

/-- Projection of a table row to the selected columns. -/
def listedOf (r : DbRow) : ListedRow :=
  ⟨r.id, r.customer_name, r.challan_no, r.created_at, r.total_items, r.total_price⟩

/-- The list-challans handler: filter by the WHERE clause, sort, project. -/
def list_challans (db : List DbRow) (search : String) (sd ed : Option String)
    (le : DbRow → DbRow → Bool) : List ListedRow :=
  (sortRows le (db.filter (rowMatches search sd ed))).map listedOf

/-- The download-pdf response: a 404 with an error message, or the stored
bytes with a Content-Type and a Content-Disposition header. -/
inductive DownloadResult where
  | notFound : String → DownloadResult
  | ok : List Cell → String → String → DownloadResult
deriving Repr, DecidableEq

/-- The download-pdf handler (src/app.py:365-384): first row with the given
id; the query has no is_deleted condition. -/
def download_pdf (db : List DbRow) (challan_id : Nat) : DownloadResult :=
  match db.find? (fun r => r.id == challan_id) with
  | none => .notFound "PDF not found"
  | some r => .ok r.pdf_data "application/pdf"
      ("attachment; filename=challan_" ++ r.challan_no ++ ".pdf")

/-- The items of the Acme Co scenario in the spec. -/
def acmeItems : List JsonItem :=
  [.dict (some "Bolt") (some 10) (some (5/2)),
   .dict (some "Nut") (some 5) (some 1)]

/-- The Acme Co request payload. -/
def acmeRequest : RequestData :=
  ⟨some (.list acmeItems), some "Acme Co", some "C-001"⟩

/-- A concrete table row used to instantiate theorems with hypotheses. -/
def sampleRow : DbRow :=
  ⟨1, "Acme Co", "C-001", [], "2025-01-01", acmeItems, 15, 30, false⟩

/-- A soft-deleted concrete table row. -/
def sampleRowDeleted : DbRow :=
  ⟨2, "Beta Ltd", "C-002", [⟨30, 10, "x", 1, 0, "C"⟩], "2025-01-02", [], 0, 0, true⟩

/-- A concrete table with one live and one soft-deleted row. -/
def sampleDb : List DbRow := [sampleRow, sampleRowDeleted]

/-! Helper lemmas shared by the claim theorems. -/

theorem totalsLoop_eq (v : List ValidItem) :
    ∀ p : Int × ℚ,
      totalsLoop v p
        = (p.1 + (v.map fun it => it.quantity).sum,
           p.2 + (v.map fun it => (it.quantity : ℚ) * it.price).sum) := by
  induction v with
  | nil => intro p; simp [totalsLoop]
  | cons it rest ih =>
    intro p
    obtain ⟨ti, tp⟩ := p
    simp only [totalsLoop, List.map_cons, List.sum_cons, ih]
    rw [Prod.mk.injEq]
    exact ⟨by ring, by ring⟩

theorem getLast?_append_pair {α : Type} (l : List α) (a b : α) :
    (l ++ [a, b]).getLast? = some b := by
  have h : l ++ [a, b] = (l ++ [a]) ++ [b] := by simp
  rw [h, List.getLast?_concat]

theorem digitChar_isDigit : ∀ n : Nat, n < 10 → (digitChar n).isDigit = true := by decide

theorem formatTwoDec_shape (x : ℚ) :
    ∃ c1 c2 : Char, c1.isDigit = true ∧ c2.isDigit = true ∧
      formatTwoDec x
        = toString (round (x * 100) / 100) ++ "." ++ String.mk [c1, c2] := by
  have hlt : (round (x * 100) % 100).toNat < 100 := by omega
  refine ⟨digitChar ((round (x * 100) % 100).toNat / 10),
          digitChar ((round (x * 100) % 100).toNat % 10), ?_, ?_, ?_⟩
  · exact digitChar_isDigit _ (by omega)
  · exact digitChar_isDigit _ (Nat.mod_lt _ (by omega))
  · simp [formatTwoDec, twoDigits]

theorem formatTwoDec_zero : formatTwoDec 0 = "0.00" := by
  simp only [formatTwoDec]
  norm_num [round_eq]
  decide

theorem formatTwoDec_thirty : formatTwoDec 30 = "30.00" := by
  simp only [formatTwoDec]
  norm_num [round_eq]
  decide

theorem renderPdf_getLast (cn ch today : String) (v : List ValidItem) :
    (renderPdf cn ch today v).getLast?
      = some ⟨30, 10, "Rs " ++ formatTwoDec (totalPrice v), 1, 1, "R"⟩ := by
  unfold renderPdf
  exact getLast?_append_pair _ _ _

/-- Claim C3: a record whose items list is empty is rejected with the
validation error for the non-empty-array check, and the table is unchanged,
so no document is produced or stored. -/
theorem empty_items_rejected :
    ∀ (cn ch today : String) (db : List DbRow) (nid : Nat),
      generate_pdf ⟨some (.list []), some cn, some ch⟩ today db nid
        = (.error .itemsNotNonEmptyList, db) := by
  intro cn ch today db nid
  rfl

/-- Claim C1: for every valid record, the computed total-items value is the
sum of the item quantities, the computed total-price is the sum of quantity
times price over the items, the totals row of the rendered document shows the
total price formatted with a currency prefix, and that formatted value has
exactly two digits after the decimal point; in particular the Acme Co record
with items Bolt (10 at 2.50) and Nut (5 at 1.00) yields totalItems 15,
totalPrice 30, and a totals row showing 30.00. -/
theorem totals_match_item_sums :
    (∀ (cn ch today : String) (v : List ValidItem),
      totalItems v = (v.map fun it => it.quantity).sum ∧
      totalPrice v = (v.map fun it => (it.quantity : ℚ) * it.price).sum ∧
      (renderPdf cn ch today v).getLast?
        = some ⟨30, 10, "Rs " ++ formatTwoDec (totalPrice v), 1, 1, "R"⟩ ∧
      ∃ c1 c2 : Char, c1.isDigit = true ∧ c2.isDigit = true ∧
        formatTwoDec (totalPrice v)
          = toString (round (totalPrice v * 100) / 100) ++ "." ++ String.mk [c1, c2]) ∧
    (∀ today : String,
      totalItems (acmeItems.map toValidItem) = 15 ∧
      totalPrice (acmeItems.map toValidItem) = 30 ∧
      (renderPdf "Acme Co" "C-001" today (acmeItems.map toValidItem)).getLast?
        = some ⟨30, 10, "Rs 30.00", 1, 1, "R"⟩) := by
  have hti : ∀ v : List ValidItem, totalItems v = (v.map fun it => it.quantity).sum := by
    intro v; simp [totalItems, totalsLoop_eq]
  have htp : ∀ v : List ValidItem,
      totalPrice v = (v.map fun it => (it.quantity : ℚ) * it.price).sum := by
    intro v; simp [totalPrice, totalsLoop_eq]
  have hacme : totalPrice (acmeItems.map toValidItem) = 30 := by
    simp [acmeItems, toValidItem, totalPrice, totalsLoop]
    norm_num
  refine ⟨fun cn ch today v => ⟨hti v, htp v, renderPdf_getLast cn ch today v, formatTwoDec_shape _⟩,
          fun today => ⟨?_, hacme, ?_⟩⟩
  · simp [acmeItems, toValidItem, totalItems, totalsLoop]
  · rw [renderPdf_getLast, hacme, formatTwoDec_thirty]
    decide

theorem generate_pdf_invalid (cn ch today : String) (db : List DbRow) (nid : Nat)
    (xs : List JsonItem) (i : Nat) (h : firstInvalidIdx xs 0 = some i) :
    generate_pdf ⟨some (.list xs), some cn, some ch⟩ today db nid
      = (.error (.invalidItem i), db) := by
  cases xs with
  | nil => simp [firstInvalidIdx] at h
  | cons x rest => simp [generate_pdf, missingFields, h]

/-- Claim C2: an item missing its description field or its quantity field
makes generate_pdf fail with the single validation error naming the first
offending index, leaving the table unchanged; an item missing only its price
field is valid, its price defaults to 0, its row shows 0.00 in both the price
and the total column, and the request succeeds. -/
theorem invalid_item_rejected_and_price_defaults :
    ∀ (cn ch today : String) (db : List DbRow) (nid : Nat),
      (∀ (xs : List JsonItem) (i : Nat), firstInvalidIdx xs 0 = some i →
        generate_pdf ⟨some (.list xs), some cn, some ch⟩ today db nid
          = (.error (.invalidItem i), db)) ∧
      (∀ (ds : String) (q : Int),
        itemValid (.dict (some ds) (some q) none) = true ∧
        itemRow (toValidItem (.dict (some ds) (some q) none))
          = [⟨30, 10, toString q, 1, 0, "C"⟩, ⟨80, 10, ds, 1, 0, "L"⟩,
             ⟨30, 10, "Rs 0.00", 1, 0, "R"⟩, ⟨30, 10, "Rs 0.00", 1, 1, "R"⟩] ∧
        (generate_pdf ⟨some (.list [.dict (some ds) (some q) none]), some cn, some ch⟩
            today db nid).1 = .ok ⟨nid, ch⟩) := by
  intro cn ch today db nid
  refine ⟨fun xs i h => generate_pdf_invalid cn ch today db nid xs i h,
          fun ds q => ⟨rfl, ?_, rfl⟩⟩
  have hz : ((q : ℚ) * 0) = 0 := mul_zero _
  simp [itemRow, toValidItem, hz, formatTwoDec_zero]

/-- Witness for C2 at concrete inputs: one item missing its description and
one missing its quantity are each rejected with the error naming index 0, and
the table is unchanged. -/
theorem invalid_item_rejected_and_price_defaults_witness :
    generate_pdf ⟨some (.list [.dict none (some 3) none]), some "A", some "B"⟩ "d" [] 7
      = (.error (.invalidItem 0), []) ∧
    generate_pdf ⟨some (.list [.dict (some "Bolt") none none]), some "A", some "B"⟩ "d" [] 7
      = (.error (.invalidItem 0), []) := by
  have t := invalid_item_rejected_and_price_defaults "A" "B" "d" [] 7
  exact ⟨t.1 _ 0 rfl, t.1 _ 0 rfl⟩

theorem length_flatMap_itemRow (v : List ValidItem) :
    (v.flatMap itemRow).length = 4 * v.length := by
  induction v with
  | nil => rfl
  | cons x rest ih =>
    simp only [List.flatMap_cons, List.length_append, ih, List.length_cons, itemRow]
    simp
    omega

/-- Claim C4: the renderer draws exactly one four-cell row per item, the rows
appearing between the fixed eight-cell header block and the two-cell totals
row in the input order of the items; in each row the quantity is the integer
text of the quantity, the description is left-aligned, and the price and the
line total quantity times price are drawn with the currency prefix and a
value having exactly two digits after the decimal point. -/
theorem rows_rendered_in_input_order :
    ∀ (cn ch today : String) (v : List ValidItem),
      (∃ pre post, renderPdf cn ch today v = pre ++ v.flatMap itemRow ++ post ∧
        pre.length = 8 ∧ post.length = 2) ∧
      (v.flatMap itemRow).length = 4 * v.length ∧
      (∀ it : ValidItem, itemRow it
        = [⟨30, 10, toString it.quantity, 1, 0, "C"⟩,
           ⟨80, 10, it.description, 1, 0, "L"⟩,
           ⟨30, 10, "Rs " ++ formatTwoDec it.price, 1, 0, "R"⟩,
           ⟨30, 10, "Rs " ++ formatTwoDec ((it.quantity : ℚ) * it.price), 1, 1, "R"⟩]) ∧
      (∀ x : ℚ, ∃ c1 c2 : Char, c1.isDigit = true ∧ c2.isDigit = true ∧
        formatTwoDec x
          = toString (round (x * 100) / 100) ++ "." ++ String.mk [c1, c2]) := by
  intro cn ch today v
  refine ⟨⟨[⟨200, 10, "Shakti Trading Co.", 0, 1, "C"⟩,
            ⟨200, 10, "Date: " ++ today, 0, 1, "R"⟩,
            ⟨200, 10, "Customer: " ++ cn, 0, 1, "L"⟩,
            ⟨200, 10, "Challan No: " ++ ch, 0, 1, "L"⟩,
            ⟨30, 10, "Quantity", 1, 0, "C"⟩,
            ⟨80, 10, "Description", 1, 0, "C"⟩,
            ⟨30, 10, "Price", 1, 0, "C"⟩,
            ⟨30, 10, "Total", 1, 1, "C"⟩],
           [⟨140, 10, "Total", 1, 0, "R"⟩,
            ⟨30, 10, "Rs " ++ formatTwoDec (totalPrice v), 1, 1, "R"⟩],
           rfl, rfl, rfl⟩,
         length_flatMap_itemRow v, fun it => rfl, fun x => formatTwoDec_shape x⟩

theorem generate_pdf_cases (d : RequestData) (today : String) (db : List DbRow) (nid : Nat) :
    (generate_pdf d today db nid).2 = db ∨ ∃ s, (generate_pdf d today db nid).1 = .ok s := by
  unfold generate_pdf
  repeat' split
  all_goals first
    | exact Or.inl rfl
    | exact Or.inr ⟨_, rfl⟩

/-- Claim C5: whenever generate_pdf returns an error the table is unchanged,
so no insertion and no document survive a failed request; and each class of
invalid payload, namely a missing required top-level field, a non-list items
value, an empty items list, and an item missing description or quantity,
does return an error. -/
theorem validation_before_effects :
    ∀ (d : RequestData) (today : String) (db : List DbRow) (nid : Nat),
      (∀ e : ApiError, (generate_pdf d today db nid).1 = .error e →
        (generate_pdf d today db nid).2 = db) ∧
      ((d.items = none ∨ d.customerName = none ∨ d.challanNo = none) →
        isErr (generate_pdf d today db nid).1 = true) ∧
      (d.items = some .notList → isErr (generate_pdf d today db nid).1 = true) ∧
      (d.items = some (.list []) → isErr (generate_pdf d today db nid).1 = true) ∧
      (∀ (xs : List JsonItem) (i : Nat), d.items = some (.list xs) →
        firstInvalidIdx xs 0 = some i →
        isErr (generate_pdf d today db nid).1 = true) := by
  intro d today db nid
  obtain ⟨it, cn, ch⟩ := d
  refine ⟨?_, ?_, ?_, ?_, ?_⟩
  · intro e h
    rcases generate_pdf_cases ⟨it, cn, ch⟩ today db nid with h2 | ⟨s, h2⟩
    · exact h2
    · rw [h2] at h
      exact Except.noConfusion h
  · intro hmiss
    rcases hmiss with h | h | h <;> simp only at h <;> subst h <;>
      simp [generate_pdf, missingFields, isErr]
  · intro h
    simp only at h
    subst h
    rcases cn with _ | c <;> rcases ch with _ | c2 <;>
      simp [generate_pdf, missingFields, isErr]
  · intro h
    simp only at h
    subst h
    rcases cn with _ | c <;> rcases ch with _ | c2 <;>
      simp [generate_pdf, missingFields, isErr]
  · intro xs i hx hinv
    simp only at hx
    subst hx
    rcases cn with _ | c <;> rcases ch with _ | c2
    · simp [generate_pdf, missingFields, isErr]
    · simp [generate_pdf, missingFields, isErr]
    · simp [generate_pdf, missingFields, isErr]
    · rw [generate_pdf_invalid c c2 today db nid xs i hinv]
      rfl

/-- Witness for C5 at concrete inputs: a payload with no items field, a
non-list items value, an empty items list, and a non-dict item each produce
an error, and the table is unchanged on the last of these. -/
theorem validation_before_effects_witness :
    isErr (generate_pdf ⟨none, some "A", some "B"⟩ "d" sampleDb 5).1 = true ∧
    isErr (generate_pdf ⟨some .notList, some "A", some "B"⟩ "d" sampleDb 5).1 = true ∧
    isErr (generate_pdf ⟨some (.list []), some "A", some "B"⟩ "d" sampleDb 5).1 = true ∧
    isErr (generate_pdf ⟨some (.list [.nonDict]), some "A", some "B"⟩ "d" sampleDb 5).1 = true ∧
    (generate_pdf ⟨some (.list [.nonDict]), some "A", some "B"⟩ "d" sampleDb 5).2 = sampleDb := by
  refine ⟨(validation_before_effects ⟨none, some "A", some "B"⟩ "d" sampleDb 5).2.1 (Or.inl rfl),
          (validation_before_effects ⟨some .notList, some "A", some "B"⟩ "d" sampleDb 5).2.2.1 rfl,
          (validation_before_effects ⟨some (.list []), some "A", some "B"⟩ "d" sampleDb 5).2.2.2.1 rfl,
          (validation_before_effects ⟨some (.list [.nonDict]), some "A", some "B"⟩
              "d" sampleDb 5).2.2.2.2 [.nonDict] 0 rfl rfl,
          (validation_before_effects ⟨some (.list [.nonDict]), some "A", some "B"⟩
              "d" sampleDb 5).1 (.invalidItem 0) rfl⟩

/-- Claim C6: rendering the same record with two generation dates yields
layout-identical output: the same cell count, identical cells at every
position other than the date line at index 1, and at index 1 a cell equal in
width, height, border, line-break flag and alignment, so only the embedded
date text may differ between the two runs. -/
theorem render_layout_date_only :
    ∀ (cn ch d1 d2 : String) (v : List ValidItem),
      (renderPdf cn ch d1 v).length = (renderPdf cn ch d2 v).length ∧
      (∀ i : Nat, i ≠ 1 → (renderPdf cn ch d1 v)[i]? = (renderPdf cn ch d2 v)[i]?) ∧
      ((renderPdf cn ch d1 v)[1]?).map (fun c => (c.w, c.h, c.border, c.ln, c.align))
        = ((renderPdf cn ch d2 v)[1]?).map (fun c => (c.w, c.h, c.border, c.ln, c.align)) := by
  intro cn ch d1 d2 v
  refine ⟨rfl, ?_, rfl⟩
  intro i hi
  match i, hi with
  | 0, _ => rfl
  | 1, hi => exact absurd rfl hi
  | (n + 2), _ => rfl

/-- Witness for C6 at concrete inputs: the Acme Co record rendered on two
different dates has the same cell count and the same title cell. -/
theorem render_layout_date_only_witness :
    (renderPdf "Acme Co" "C-001" "01-01-2025" (acmeItems.map toValidItem)).length
      = (renderPdf "Acme Co" "C-001" "02-01-2025" (acmeItems.map toValidItem)).length ∧
    (renderPdf "Acme Co" "C-001" "01-01-2025" (acmeItems.map toValidItem))[0]?
      = (renderPdf "Acme Co" "C-001" "02-01-2025" (acmeItems.map toValidItem))[0]? := by
  have t := render_layout_date_only "Acme Co" "C-001" "01-01-2025" "02-01-2025"
    (acmeItems.map toValidItem)
  exact ⟨t.1, t.2.1 0 (by decide)⟩

/-- Claim C8: whenever download_pdf answers successfully, the Content-Type
header is application/pdf, and the body and the Content-Disposition filename
challan_<challanNo>.pdf come from a stored row whose id is the requested
one. -/
theorem download_content_type_and_filename :
    ∀ (db : List DbRow) (cid : Nat) (body : List Cell) (ct cd : String),
      download_pdf db cid = .ok body ct cd →
      ct = "application/pdf" ∧
      ∃ r, r ∈ db ∧ r.id = cid ∧ body = r.pdf_data ∧
        cd = "attachment; filename=challan_" ++ r.challan_no ++ ".pdf" := by
  intro db cid body ct cd h
  unfold download_pdf at h
  cases hf : db.find? (fun r => r.id == cid) with
  | none =>
    rw [hf] at h
    exact DownloadResult.noConfusion h
  | some r =>
    rw [hf] at h
    cases h
    have hmem := List.mem_of_find?_eq_some hf
    have hp := List.find?_some hf
    simp only [beq_iff_eq] at hp
    exact ⟨rfl, r, hmem, hp, rfl, rfl⟩

/-- Witness for C8: the sample table answers request id 1 with the stored
empty byte sequence, the PDF content type, and the filename built from
challan number C-001. -/
theorem download_content_type_and_filename_witness :
    "application/pdf" = "application/pdf" ∧
    ∃ r, r ∈ sampleDb ∧ r.id = 1 ∧ ([] : List Cell) = r.pdf_data ∧
      "attachment; filename=challan_C-001.pdf"
        = "attachment; filename=challan_" ++ r.challan_no ++ ".pdf" :=
  download_content_type_and_filename sampleDb 1 [] "application/pdf"
    "attachment; filename=challan_C-001.pdf" (by decide)

theorem find?_map_deleted (f : DbRow → Bool) (cid : Nat) (db : List DbRow) :
    (db.map fun r => { r with is_deleted := f r }).find? (fun r => r.id == cid)
      = (db.find? (fun r => r.id == cid)).map (fun r => { r with is_deleted := f r }) := by
  induction db with
  | nil => rfl
  | cons a l ih =>
    simp only [List.map_cons, List.find?_cons]
    cases h : a.id == cid with
    | true => simp [h]
    | false => simp [h, ih]

/-- Claim C9: download_pdf answers successfully exactly when a row with the
requested id exists, answers the 404 error PDF not found exactly when none
does, and never consults the is_deleted flag: flipping the flags of every
row, in particular soft-deleting one, leaves the answer unchanged. -/
theorem download_ignores_soft_delete :
    ∀ (db : List DbRow) (cid : Nat),
      ((∃ body ct cd, download_pdf db cid = .ok body ct cd) ↔ ∃ r, r ∈ db ∧ r.id = cid) ∧
      (download_pdf db cid = .notFound "PDF not found" ↔ ¬∃ r, r ∈ db ∧ r.id = cid) ∧
      (∀ f : DbRow → Bool,
        download_pdf (db.map fun r => { r with is_deleted := f r }) cid
          = download_pdf db cid) := by
  intro db cid
  have hmap : ∀ f : DbRow → Bool,
      download_pdf (db.map fun r => { r with is_deleted := f r }) cid
        = download_pdf db cid := by
    intro f
    unfold download_pdf
    rw [find?_map_deleted f cid db]
    cases db.find? (fun r => r.id == cid) with
    | none => rfl
    | some r => rfl
  cases hf : db.find? (fun r => r.id == cid) with
  | none =>
    have hno : ∀ r ∈ db, ¬(r.id = cid) := by
      intro r hr
      have := List.find?_eq_none.mp hf r hr
      simpa using this
    refine ⟨⟨?_, ?_⟩, ⟨?_, ?_⟩, hmap⟩
    · rintro ⟨body, ct, cd, h⟩
      unfold download_pdf at h
      rw [hf] at h
      exact DownloadResult.noConfusion h
    · rintro ⟨r, hr, hid⟩
      exact absurd hid (hno r hr)
    · rintro - ⟨r, hr, hid⟩
      exact hno r hr hid
    · intro h
      unfold download_pdf
      rw [hf]
  | some r =>
    have hex : ∃ r2, r2 ∈ db ∧ r2.id = cid :=
      ⟨r, List.mem_of_find?_eq_some hf, by simpa using List.find?_some hf⟩
    refine ⟨⟨fun h => hex, ?_⟩, ⟨?_, fun hno => absurd hex hno⟩, hmap⟩
    · intro h
      exact ⟨r.pdf_data, "application/pdf",
             "attachment; filename=challan_" ++ r.challan_no ++ ".pdf",
             by unfold download_pdf; rw [hf]⟩
    · intro h
      unfold download_pdf at h
      rw [hf] at h
      exact DownloadResult.noConfusion h

/-- Witness for C9: in the sample table the soft-deleted row with id 2 is
still downloadable, and the absent id 3 answers the 404 error. -/
theorem download_ignores_soft_delete_witness :
    (∃ body ct cd, download_pdf sampleDb 2 = .ok body ct cd) ∧
    download_pdf sampleDb 3 = .notFound "PDF not found" := by
  have t2 := download_ignores_soft_delete sampleDb 2
  have t3 := download_ignores_soft_delete sampleDb 3
  refine ⟨t2.1.mpr ⟨sampleRowDeleted, by simp [sampleDb], rfl⟩, t3.2.1.mpr ?_⟩
  rintro ⟨r, hr, hid⟩
  rcases (by simpa [sampleDb] using hr : r = sampleRow ∨ r = sampleRowDeleted) with h | h <;>
    subst h <;> simp [sampleRow, sampleRowDeleted] at hid

theorem mem_insertSorted (le : DbRow → DbRow → Bool) (a x : DbRow) :
    ∀ l : List DbRow, x ∈ insertSorted le a l → x = a ∨ x ∈ l := by
  intro l
  induction l with
  | nil =>
    intro h
    simp only [insertSorted] at h
    exact Or.inl (List.mem_singleton.mp h)
  | cons b m ih =>
    intro h
    simp only [insertSorted] at h
    by_cases hc : le a b
    · rw [if_pos hc] at h
      rcases List.mem_cons.mp h with h1 | h2
      · exact Or.inl h1
      · exact Or.inr h2
    · rw [if_neg hc] at h
      rcases List.mem_cons.mp h with h1 | h2
      · exact Or.inr (List.mem_cons.mpr (Or.inl h1))
      · rcases ih h2 with h3 | h4
        · exact Or.inl h3
        · exact Or.inr (List.mem_cons.mpr (Or.inr h4))

theorem mem_sortRows (le : DbRow → DbRow → Bool) (x : DbRow) :
    ∀ l : List DbRow, x ∈ sortRows le l → x ∈ l := by
  intro l
  induction l with
  | nil => intro h; simp [sortRows] at h
  | cons b m ih =>
    intro h
    rcases mem_insertSorted le b x (sortRows le m) h with h3 | h4
    · exact List.mem_cons.mpr (Or.inl h3)
    · exact List.mem_cons.mpr (Or.inr (ih h4))

/-- Claim C10: for every search term, date bounds and ordering relation,
every record returned by list_challans is the projection of a stored row
whose is_deleted flag is false, so soft-deleted challans never appear in
listing results. -/
theorem listing_excludes_soft_deleted :
    ∀ (db : List DbRow) (search : String) (sd ed : Option String)
      (le : DbRow → DbRow → Bool) (x : ListedRow),
      x ∈ list_challans db search sd ed le →
      ∃ r, r ∈ db ∧ r.is_deleted = false ∧ x = listedOf r := by
  intro db search sd ed le x hx
  unfold list_challans at hx
  rcases List.mem_map.mp hx with ⟨r, hr, hxr⟩
  have hr2 := mem_sortRows le r _ hr
  have hr3 := List.mem_filter.mp hr2
  refine ⟨r, hr3.1, ?_, hxr.symm⟩
  have hm := hr3.2
  simp only [rowMatches, Bool.and_eq_true, beq_iff_eq] at hm
  exact hm.1.1.1

/-- Witness for C10: in the sample table, the one record returned by an
unfiltered listing is the projection of the live row. -/
theorem listing_excludes_soft_deleted_witness :
    ∃ r, r ∈ sampleDb ∧ r.is_deleted = false ∧ listedOf sampleRow = listedOf r :=
  listing_excludes_soft_deleted sampleDb "" none none (fun _ _ => true)
    (listedOf sampleRow) (by decide)

end VoiceChallan
